import Mathlib

/-! # Image slider (`script.js`): state machine and its properties

The script keeps its state in module-level variables and changes it from event
handlers that each run to completion.  The embedding below puts those variables
in one record `State`, together with the three pieces of the browser
environment that the handlers read back:

* the `img` children of the `#slider` element (`slider.children`),
* the elements of class `fullscreen-mode` attached to the document body,
* the interval timers that `setInterval` scheduled and `clearInterval` has not
  cancelled, and the `FileReader` loads that have not completed.

Every handler is a function `State → State`.  Writes to the page that no handler
reads back (style properties, the indicator dots, the slide counter, button
icons, `preventDefault`) are left out.

Numbers.  `currentIndex` is an integer or `NaN` (`x % 0` in JavaScript); it is
an `Option Int` whose `none` is `NaN`.  A finite double is the rational it
denotes.  Zoom levels are multiples of `0.5` between `1` and `3`, on which
double addition and subtraction are exact.  Pointer coordinates are arbitrary
doubles (`Touch.clientX` is fractional), so the difference `endX - startX` is
the IEEE 754 one, `doubleSub`: the exact difference rounded to the nearest
double, ties to even.

Timers.  `setInterval` returns a handle that is positive and was not returned
before; the model issues `1, 2, 3, ...`.
-/

namespace ImageSlider

/-! ## Data -/

/-- Constant `defaultImages` (script.js, line 9). -/
def defaultImages : List String :=
  ["images/image1.jpg", "images/image2.jpg", "images/image3.jpg",
   "images/image4.jpg", "images/image5.jpg"]

/-- Constant `threshold` (line 226): minimum distance to be considered a swipe. -/
def threshold : ℚ := 50

/-- Constant `minZoom` (line 314). -/
def minZoom : ℚ := 1

/-- Constant `maxZoom` (line 315). -/
def maxZoom : ℚ := 3

/-- Constant `zoomStep` (line 316), the constant `0.5`. -/
def zoomStep : ℚ := 1 / 2

/-- A file of the selection handed to the image input: its MIME `type` and the
data URL that `readAsDataURL` produces for it. -/
structure File where
  type : String
  dataURL : String
  deriving DecidableEq

/-- A `FileReader` load that was started and has not fired `onload` yet: the
result it will deliver and the `files.length` its closure captured. -/
structure PendingLoad where
  result : String
  filesLength : Nat
  deriving DecidableEq

/-- A `div.fullscreen-mode` attached to the body: the source of the image it
shows, and whether the backdrop click listener of lines 418-423 was registered
on it (it is registered only under `if (autoplay)`, so `wasAutoplay` is true
whenever the listener exists). -/
structure Overlay where
  src : String
  backdropListener : Bool
  deriving DecidableEq

/-- The module-level variables of the script and the environment they refer to. -/
structure State where
  /-- Variable `images` (line 18) -/
  images : List String
  /-- Variable `currentIndex` (line 19); `none` is `NaN` -/
  currentIndex : Option Int
  /-- Variable `autoplay` (line 20) -/
  autoplay : Bool
  /-- Variable `timer` (line 21); `none` is `null` -/
  timer : Option Nat
  /-- Variable `startX` (line 223) -/
  startX : ℚ
  /-- Variable `endX` (line 224) -/
  endX : ℚ
  /-- Variable `isDragging` (line 225) -/
  isDragging : Bool
  /-- Variable `currentZoom` (line 313) -/
  currentZoom : ℚ
  /-- the `src` of each `img` child of `#slider`, in order -/
  sliderChildren : List String
  /-- the `.fullscreen-mode` elements of the body, in document order -/
  overlays : List Overlay
  /-- handles of the interval timers that are scheduled -/
  scheduled : List Nat
  /-- the handle the next `setInterval` call returns -/
  nextHandle : Nat
  /-- the `FileReader` loads in flight -/
  pending : List PendingLoad
  deriving DecidableEq

/-- The state when the script has been evaluated and no event has run: the
initialisers of lines 18-21, 223-225 and 313; an empty slider, no overlay, no
timer, no load.  Timer handles are positive integers, the first one is `1`. -/
def initialState : State where
  images := defaultImages
  currentIndex := some 0
  autoplay := true
  timer := none
  startX := 0
  endX := 0
  isDragging := false
  currentZoom := 1
  sliderChildren := []
  overlays := []
  scheduled := []
  nextHandle := 1
  pending := []

/-! ## JavaScript primitives -/

/-- JavaScript `a % n` for an integer-or-`NaN` `a` and an array length `n`: `NaN` when `a`
is `NaN` or `n` is `0`, otherwise the remainder that takes the sign of `a`. -/
def jsRem (a : Option Int) (n : Nat) : Option Int :=
  match a with
  | none => none
  | some x => if n = 0 then none else some (Int.tmod x (n : Int))

/-- JavaScript `a + k` on an integer-or-`NaN`. -/
def jsAdd (a : Option Int) (k : Int) : Option Int :=
  a.map (fun x => x + k)

/-- Rounding of a rational to the nearest integer, ties to the even one. -/
def roundHalfEven (t : ℚ) : ℤ :=
  if t - ⌊t⌋ < 1 / 2 then ⌊t⌋
  else if 1 / 2 < t - ⌊t⌋ then ⌊t⌋ + 1
  else if ⌊t⌋ % 2 = 0 then ⌊t⌋ else ⌊t⌋ + 1

/-- The spacing of the doubles around `q` (IEEE 754 binary64, 53 significant
bits): `2 ^ (e - 52)` where `2 ^ e <= |q| < 2 ^ (e + 1)`, with `e` no smaller
than `-1022`, the exponent of the subnormal numbers.  At `q = 0` the value
plays no part: zero rounds to zero on every spacing. -/
def quantum (q : ℚ) : ℚ :=
  2 ^ (max (Int.log 2 |q|) (-1022) - 52)

/-- The double nearest to `q`, ties to even: the multiple of the spacing at `q`
that `roundHalfEven` selects.  Past the largest double the JavaScript value is
an infinity; the model keeps the rounded rational, which compares with `0` and
with `50` the way the infinity of its sign does. -/
def toDouble (q : ℚ) : ℚ :=
  (roundHalfEven (q / quantum q) : ℚ) * quantum q

/-- JavaScript `a - b` on two finite doubles: the exact difference, rounded. -/
def doubleSub (a b : ℚ) : ℚ :=
  toDouble (a - b)

/-- Whether `file.type.match` applied to the pattern `image.*` is non-null: the pattern has no anchor, so it
matches when `image` occurs somewhere in the type. -/
def matchesImage (type : String) : Bool :=
  decide ("image".toList <:+: type.toList)

/-- JavaScript `clearInterval(h)`. -/
def clearInterval (h : Nat) (s : State) : State :=
  { s with scheduled := s.scheduled.filter (fun k => k ≠ h) }

/-- The statement `if (timer) clearInterval(timer);` (lines 182 and 200): a
handle is truthy when it is neither `null` nor `0`. -/
def clearIfTimer (s : State) : State :=
  match s.timer with
  | some h => if h ≠ 0 then clearInterval h s else s
  | none => s

/-! ## Zoom (lines 331-375) -/

/-- Function `resetZoom` (line 369). -/
def resetZoom (s : State) : State :=
  { s with currentZoom := 1 }

/-- Function `zoomIn` (line 331). -/
def zoomIn (s : State) : State :=
  if s.currentZoom < maxZoom then { s with currentZoom := s.currentZoom + zoomStep } else s

/-- Function `zoomOut` (line 341). -/
def zoomOut (s : State) : State :=
  if s.currentZoom > minZoom then { s with currentZoom := s.currentZoom - zoomStep } else s

/-- The click listener that `renderImages` puts on every image (lines 96-104). -/
def imageClick (s : State) : State :=
  if s.currentZoom > 1 then resetZoom s else { s with currentZoom := 2 }

/-! ## Rendering (lines 84-133) -/

/-- Function `renderImages` (line 84): falls back to the default images when `images` is
empty, then makes one `img` per image. -/
def renderImages (s : State) : State :=
  let s1 := if s.images.length = 0 then { s with images := defaultImages } else s
  { s1 with sliderChildren := s1.images }

/-- Function `updateSlider` (line 126): of its effects only `resetZoom()` touches the state. -/
def updateSlider (s : State) : State :=
  resetZoom s

/-! ## Autoplay (lines 181-202) -/

/-- Function `stopAutoplay` (line 199). -/
def stopAutoplay (s : State) : State :=
  { clearIfTimer s with timer := none }

/-- Function `startAutoplay` (line 181): cancels the current timer if there is one, then
schedules a new interval timer and stores its handle. -/
def startAutoplay (s : State) : State :=
  let s1 := clearIfTimer s
  { s1 with
    timer := some s1.nextHandle
    scheduled := s1.scheduled ++ [s1.nextHandle]
    nextHandle := s1.nextHandle + 1 }

/-- Function `resetAutoplayTimer` (line 191). -/
def resetAutoplayTimer (s : State) : State :=
  startAutoplay (stopAutoplay s)

/-- The tail `if (autoplay) resetAutoplayTimer();` of `prev`, `next` and `goTo`. -/
def resetIfAutoplay (s : State) : State :=
  if s.autoplay then resetAutoplayTimer s else s

/-! ## Navigation (lines 151-176) -/

/-- Function `prev` (line 151). -/
def prev (s : State) : State :=
  let s1 := { s with
    currentIndex := jsRem (jsAdd (jsAdd s.currentIndex (-1)) s.images.length) s.images.length }
  resetIfAutoplay (updateSlider s1)

/-- Function `next` (line 161). -/
def next (s : State) : State :=
  let s1 := { s with currentIndex := jsRem (jsAdd s.currentIndex 1) s.images.length }
  resetIfAutoplay (updateSlider s1)

/-- Function `goTo` (line 171). -/
def goTo (idx : Int) (s : State) : State :=
  let s1 := { s with currentIndex := some idx }
  resetIfAutoplay (updateSlider s1)

/-- The interval callback of line 183, `if (autoplay) next();`, fired
for the timer with handle `h`; a timer that is not scheduled does not fire. -/
def tick (h : Nat) (s : State) : State :=
  if h ∈ s.scheduled then (if s.autoplay then next s else s) else s

/-- The click listener of the autoplay button (line 209). -/
def toggleAutoplay (s : State) : State :=
  let s1 := { s with autoplay := !s.autoplay }
  if s1.autoplay then startAutoplay s1 else stopAutoplay s1

/-- The `visibilitychange` listener (line 300), with the value of `document.hidden`. -/
def visibilityChange (hidden : Bool) (s : State) : State :=
  if hidden then (if s.autoplay then stopAutoplay s else s)
  else (if s.autoplay then startAutoplay s else s)

/-- The `DOMContentLoaded` listener (line 35). -/
def domContentLoaded (s : State) : State :=
  startAutoplay (updateSlider (renderImages s))

/-! ## Drag and swipe (lines 244-280) -/

/-- Function `handleTouchStart` (line 244), with the `clientX` of the event, a
finite double. -/
def handleTouchStart (x : ℚ) (s : State) : State :=
  { s with startX := x, isDragging := true }

/-- Function `handleTouchMove` (line 252), with the `clientX` of the event. -/
def handleTouchMove (x : ℚ) (s : State) : State :=
  if !s.isDragging then s else { s with endX := x }

/-- Function `handleTouchEnd` (line 266); `diff` is the double difference of
line 270, `Math.abs(diff) < threshold` and `diff > 0` compare doubles. -/
def handleTouchEnd (s : State) : State :=
  if !s.isDragging then s
  else
    let s1 := { s with isDragging := false }
    let diff := doubleSub s1.endX s1.startX
    if |diff| < threshold then s1
    else if diff > 0 then prev s1
    else next s1

/-! ## Fullscreen (lines 380-435) -/

/-- JavaScript `slider.children[currentIndex]`: `none` (undefined) when the index is `NaN`,
negative or past the last child. -/
def currentImage (s : State) : Option String :=
  match s.currentIndex with
  | some i => if 0 ≤ i then s.sliderChildren.get? i.toNat else none
  | none => none

/-- Function `closeFullscreen` (line 430): removes the first `.fullscreen-mode` element. -/
def closeFullscreen (s : State) : State :=
  match s.overlays with
  | [] => s
  | _ :: rest => { s with overlays := rest }

/-- Function `toggleFullscreen` (line 380). -/
def toggleFullscreen (s : State) : State :=
  match currentImage s with
  | none => s
  | some src =>
    match s.overlays with
    | _ :: _ => closeFullscreen s
    | [] =>
      let s1 := { s with overlays := s.overlays ++ [⟨src, s.autoplay⟩] }
      if s1.autoplay then stopAutoplay s1 else s1

/-- A click on the close button of the overlay (listener of line 405); there is
no button to click when no overlay is attached. -/
def closeButtonClick (s : State) : State :=
  closeFullscreen s

/-- A click whose target is the `k`-th overlay itself, its backdrop (listener
of lines 418-423, present only when it was registered at open time). -/
def backdropClick (k : Nat) (s : State) : State :=
  match s.overlays.get? k with
  | none => s
  | some o => if o.backdropListener then startAutoplay (closeFullscreen s) else s

/-- The `keydown` listener (line 283), with `e.key`. -/
def keydown (key : String) (s : State) : State :=
  if key = "ArrowLeft" then prev s
  else if key = "ArrowRight" then next s
  else if key = "Escape" ∧ s.overlays ≠ [] then closeFullscreen s
  else if key = "+" then zoomIn s
  else if key = "-" then zoomOut s
  else if key = "f" then toggleFullscreen s
  else s

/-! ## Image input (lines 53-79) -/

/-- The body of `files.forEach` (lines 57-71) for one file: a file whose type
does not match is skipped, for the others a load is started. -/
def startLoad (total : Nat) (s : State) (file : File) : State :=
  if !matchesImage file.type then s
  else { s with pending := s.pending ++ [⟨file.dataURL, total⟩] }

/-- The `change` listener of the image input (line 53), up to the point where
it returns; the loads it started complete later, see `readerOnload`. -/
def imageInputChange (files : List File) (s : State) : State :=
  if files.length ≠ 0 then
    files.foldl (startLoad files.length) { s with images := [] }
  else
    updateSlider (renderImages { s with images := defaultImages, currentIndex := some 0 })

/-- JavaScript `reader.onload` (line 62) for the `k`-th load in flight. -/
def readerOnload (k : Nat) (s : State) : State :=
  match s.pending.get? k with
  | none => s
  | some p =>
    let s1 := { s with pending := s.pending.eraseIdx k, images := s.images ++ [p.result] }
    if s1.images.length = p.filesLength then
      updateSlider (renderImages { s1 with currentIndex := some 0 })
    else s1

/-! ## Events -/

/-- What can happen to the page: the listeners the script registers, and the
functions of the script called directly. -/
inductive Event where
  | domContentLoaded
  | imageInputChange (files : List File)
  | readerOnload (k : Nat)
  | imageClick (k : Nat)
  | dotClick (idx : Nat)
  | prev
  | next
  | goTo (idx : Int)
  | startAutoplay
  | stopAutoplay
  | toggleAutoplay
  | tick (h : Nat)
  | touchStart (x : ℚ)
  | touchMove (x : ℚ)
  | touchEnd
  | keydown (key : String)
  | visibilityChange (hidden : Bool)
  | zoomIn
  | zoomOut
  | resetZoom
  | toggleFullscreen
  | closeButtonClick
  | backdropClick (k : Nat)

/-- One event applied to a state.  An image can be clicked only if it is among
the children of the slider; a dot calls `goTo` with its own position (line 118). -/
def step (s : State) : Event → State
  | .domContentLoaded => domContentLoaded s
  | .imageInputChange files => imageInputChange files s
  | .readerOnload k => readerOnload k s
  | .imageClick k => if k < s.sliderChildren.length then imageClick s else s
  | .dotClick idx => goTo idx s
  | .prev => prev s
  | .next => next s
  | .goTo idx => goTo idx s
  | .startAutoplay => startAutoplay s
  | .stopAutoplay => stopAutoplay s
  | .toggleAutoplay => toggleAutoplay s
  | .tick h => tick h s
  | .touchStart x => handleTouchStart x s
  | .touchMove x => handleTouchMove x s
  | .touchEnd => handleTouchEnd s
  | .keydown key => keydown key s
  | .visibilityChange hidden => visibilityChange hidden s
  | .zoomIn => zoomIn s
  | .zoomOut => zoomOut s
  | .resetZoom => resetZoom s
  | .toggleFullscreen => toggleFullscreen s
  | .closeButtonClick => closeButtonClick s
  | .backdropClick k => backdropClick k s

/-- A finite sequence of events, applied from left to right. -/
def run (s : State) (evs : List Event) : State :=
  evs.foldl step s

/-- The page once `DOMContentLoaded` has run: five default images rendered,
index `0`, autoplay on with timer `1` scheduled. -/
def loaded : State :=
  domContentLoaded initialState

/-! ## Predicates used in the statements -/

/-- The fields of a state that are not about interval timers. -/
def sameButTimers (s t : State) : Prop :=
  t.images = s.images ∧ t.currentIndex = s.currentIndex ∧ t.autoplay = s.autoplay ∧
  t.startX = s.startX ∧ t.endX = s.endX ∧ t.isDragging = s.isDragging ∧
  t.currentZoom = s.currentZoom ∧ t.sliderChildren = s.sliderChildren ∧
  t.overlays = s.overlays ∧ t.pending = s.pending

/-- A call of one of the two relative navigation functions. -/
inductive NavCall where
  | next
  | prev
  deriving DecidableEq

/-- Performs one navigation call. -/
def navigate (s : State) : NavCall → State
  | .next => next s
  | .prev => prev s

/-- The index is a valid position of `images`, which has `n` elements. -/
def IndexValid (n : Nat) (s : State) : Prop :=
  s.images.length = n ∧ ∃ j : Int, s.currentIndex = some j ∧ 0 ≤ j ∧ j < n

/-- The timer invariant: the scheduled timers are exactly the one `timer` refers
to, if any; handles in use are positive and below the next handle to be issued. -/
def TimerInv (s : State) : Prop :=
  s.scheduled = s.timer.toList ∧
  (∀ h : Nat, s.timer = some h → 0 < h ∧ h < s.nextHandle) ∧
  0 < s.nextHandle

/-- The two states agree on the timer variable and on the timers of the environment. -/
def sameTimers (s t : State) : Prop :=
  t.timer = s.timer ∧ t.scheduled = s.scheduled ∧ t.nextHandle = s.nextHandle

/-- The zoom levels the script can produce. -/
def ZoomInv (s : State) : Prop :=
  s.currentZoom = 1 ∨ s.currentZoom = 3 / 2 ∨ s.currentZoom = 2 ∨
  s.currentZoom = 5 / 2 ∨ s.currentZoom = 3

/-- A whole gesture on the slider: `handleTouchStart` at `x`, one
`handleTouchMove` for each coordinate of `moves` in order, then `handleTouchEnd`. -/
def dragGesture (x : ℚ) (moves : List ℚ) (s : State) : State :=
  handleTouchEnd (moves.foldl (fun st m => handleTouchMove m st) (handleTouchStart x s))

/-- A selection entry that is not an image: a text file. -/
def textFile : File :=
  ⟨"text/plain", "data:text/plain;base64,aGVsbG8="⟩

/-- A selection entry that is an image. -/
def pngFile : File :=
  ⟨"image/png", "data:image/png;base64,iVBORw0KGgo="⟩

/-- The states the page can be in: those the initial state reaches by a finite
sequence of events. -/
def Reachable (s : State) : Prop :=
  ∃ evs : List Event, s = run initialState evs

/-! # Properties -/

/-! ## Frame lemmas: what the timer functions leave alone -/

theorem clearIfTimer_frame (s : State) : sameButTimers s (clearIfTimer s) := by
  unfold clearIfTimer
  split
  · split <;> simp [sameButTimers, clearInterval]
  · simp [sameButTimers]

theorem stopAutoplay_frame (s : State) : sameButTimers s (stopAutoplay s) := by
  have h := clearIfTimer_frame s
  simpa [sameButTimers, stopAutoplay] using h

theorem startAutoplay_frame (s : State) : sameButTimers s (startAutoplay s) := by
  have h := clearIfTimer_frame s
  simpa [sameButTimers, startAutoplay] using h

theorem sameButTimers_trans {s t u : State} (h1 : sameButTimers s t) (h2 : sameButTimers t u) :
    sameButTimers s u := by
  simp only [sameButTimers] at *
  obtain ⟨a1, a2, a3, a4, a5, a6, a7, a8, a9, a10⟩ := h1
  obtain ⟨b1, b2, b3, b4, b5, b6, b7, b8, b9, b10⟩ := h2
  exact ⟨b1.trans a1, b2.trans a2, b3.trans a3, b4.trans a4, b5.trans a5, b6.trans a6,
    b7.trans a7, b8.trans a8, b9.trans a9, b10.trans a10⟩

theorem resetIfAutoplay_frame (s : State) : sameButTimers s (resetIfAutoplay s) := by
  unfold resetIfAutoplay
  split
  · exact sameButTimers_trans (stopAutoplay_frame s) (startAutoplay_frame _)
  · simp [sameButTimers]

theorem next_currentIndex (s : State) :
    (next s).currentIndex = jsRem (jsAdd s.currentIndex 1) s.images.length := by
  have h := resetIfAutoplay_frame
    (updateSlider { s with currentIndex := jsRem (jsAdd s.currentIndex 1) s.images.length })
  simpa [next, updateSlider, resetZoom] using h.2.1

theorem prev_currentIndex (s : State) :
    (prev s).currentIndex =
      jsRem (jsAdd (jsAdd s.currentIndex (-1)) s.images.length) s.images.length := by
  have h := resetIfAutoplay_frame
    (updateSlider { s with
      currentIndex := jsRem (jsAdd (jsAdd s.currentIndex (-1)) s.images.length) s.images.length })
  simpa [prev, updateSlider, resetZoom] using h.2.1

theorem next_images (s : State) : (next s).images = s.images := by
  have h := resetIfAutoplay_frame
    (updateSlider { s with currentIndex := jsRem (jsAdd s.currentIndex 1) s.images.length })
  simpa [next, updateSlider, resetZoom] using h.1

theorem prev_images (s : State) : (prev s).images = s.images := by
  have h := resetIfAutoplay_frame
    (updateSlider { s with
      currentIndex := jsRem (jsAdd (jsAdd s.currentIndex (-1)) s.images.length) s.images.length })
  simpa [prev, updateSlider, resetZoom] using h.1

/-! ## Navigation with wraparound -/

theorem jsRem_nonneg (a : Int) (n : Nat) (hn : 0 < n) (ha : 0 ≤ a) :
    jsRem (some a) n = some (a % (n : Int)) := by
  have hn0 : n ≠ 0 := Nat.pos_iff_ne_zero.mp hn
  simp [jsRem, hn0, Int.tmod_eq_emod ha (Int.ofNat_nonneg n)]

theorem next_index_of_valid (s : State) (n : Nat) (i : Int) (hn : s.images.length = n)
    (hpos : 0 < n) (hi : s.currentIndex = some i) (h0 : 0 ≤ i) :
    (next s).currentIndex = some ((i + 1) % (n : Int)) := by
  rw [next_currentIndex, hi, hn]
  simpa [jsAdd] using jsRem_nonneg (i + 1) n hpos (by omega)

theorem prev_index_of_valid (s : State) (n : Nat) (i : Int) (hn : s.images.length = n)
    (hpos : 0 < n) (hi : s.currentIndex = some i) (h0 : 0 ≤ i) :
    (prev s).currentIndex = some ((i - 1 + (n : Int)) % (n : Int)) := by
  rw [prev_currentIndex, hi, hn]
  have h := jsRem_nonneg (i - 1 + (n : Int)) n hpos (by omega)
  simpa [jsAdd, sub_eq_add_neg] using h

theorem navigate_valid (n : Nat) (hpos : 0 < n) (s : State) (c : NavCall)
    (h : IndexValid n s) : IndexValid n (navigate s c) := by
  obtain ⟨hn, j, hj, h0, h1⟩ := h
  have hnz : (0 : Int) < (n : Int) := by exact_mod_cast hpos
  cases c with
  | next =>
    refine ⟨by simpa [navigate, next_images] using hn, (j + 1) % (n : Int), ?_, ?_, ?_⟩
    · simpa [navigate] using next_index_of_valid s n j hn hpos hj h0
    · exact Int.emod_nonneg _ (by omega)
    · exact Int.emod_lt_of_pos _ hnz
  | prev =>
    refine ⟨by simpa [navigate, prev_images] using hn, (j - 1 + (n : Int)) % (n : Int), ?_, ?_, ?_⟩
    · simpa [navigate] using prev_index_of_valid s n j hn hpos hj h0
    · exact Int.emod_nonneg _ (by omega)
    · exact Int.emod_lt_of_pos _ hnz

theorem navigate_foldl_valid (n : Nat) (hpos : 0 < n) (calls : List NavCall) :
    ∀ s : State, IndexValid n s → IndexValid n (calls.foldl navigate s) := by
  induction calls with
  | nil => intro s h; simpa using h
  | cons c cs ih => intro s h; exact ih _ (navigate_valid n hpos s c h)

/-- C1: with `n > 0` images and the index `i` in `[0, n-1]`, the index is in
`[0, n-1]` after every finite sequence of `next()` and `prev()` calls (and so
after each call of the sequence); `next()` takes `i` to `(i + 1) mod n`, hence
`n-1` to `0`, and `prev()` takes `i` to `(i - 1 + n) mod n`, hence `0` to `n-1`. -/
theorem C1_next_prev_wraparound (s : State) (n : Nat) (i : Int)
    (hn : s.images.length = n) (hpos : 0 < n)
    (hi : s.currentIndex = some i) (h0 : 0 ≤ i) (h1 : i < n) :
    (∀ calls : List NavCall, ∃ j : Int,
        (calls.foldl navigate s).currentIndex = some j ∧ 0 ≤ j ∧ j < n) ∧
    (next s).currentIndex = some ((i + 1) % (n : Int)) ∧
    (prev s).currentIndex = some ((i - 1 + (n : Int)) % (n : Int)) ∧
    (i = (n : Int) - 1 → (next s).currentIndex = some 0) ∧
    (i = 0 → (prev s).currentIndex = some ((n : Int) - 1)) := by
  have hnx := next_index_of_valid s n i hn hpos hi h0
  have hpv := prev_index_of_valid s n i hn hpos hi h0
  refine ⟨?_, hnx, hpv, ?_, ?_⟩
  · intro calls
    exact (navigate_foldl_valid n hpos calls s ⟨hn, i, hi, h0, h1⟩).2
  · intro hlast
    rw [hnx, hlast]
    simp
  · intro hfirst
    rw [hpv, hfirst]
    have hnz : (0 : Int) < (n : Int) := by exact_mod_cast hpos
    have : (0 - 1 + (n : Int)) % (n : Int) = (n : Int) - 1 :=
      Int.emod_eq_of_lt (by omega) (by omega)
    rw [this]

/-- The statement of C1 on the loaded page, five images and index `0`, with the
calls `prev()`, `next()`, `next()`. -/
theorem C1_next_prev_wraparound_witness :
    (∃ j : Int, ([NavCall.prev, NavCall.next, NavCall.next].foldl navigate loaded).currentIndex
        = some j ∧ 0 ≤ j ∧ j < (5 : Nat)) ∧
    (prev loaded).currentIndex = some ((0 - 1 + ((5 : Nat) : Int)) % ((5 : Nat) : Int)) := by
  have h := C1_next_prev_wraparound loaded 5 0 (by decide) (by decide) (by decide)
    (by decide) (by decide)
  exact ⟨h.1 [NavCall.prev, NavCall.next, NavCall.next], h.2.2.1⟩

/-! ## The timer invariant -/

theorem TimerInv_congr {s t : State} (h : sameTimers s t) (hs : TimerInv s) : TimerInv t := by
  obtain ⟨h1, h2, h3⟩ := h
  simpa [TimerInv, h1, h2, h3] using hs

theorem clearIfTimer_timers (s : State) (h : TimerInv s) :
    (clearIfTimer s).scheduled = [] ∧ (clearIfTimer s).timer = s.timer ∧
    (clearIfTimer s).nextHandle = s.nextHandle := by
  obtain ⟨hsch, hpos, _⟩ := h
  unfold clearIfTimer
  cases ht : s.timer with
  | none => simpa [ht] using hsch
  | some k =>
    have hk : k ≠ 0 := Nat.pos_iff_ne_zero.mp (hpos k ht).1
    simp [hk, clearInterval, hsch, ht]

theorem stopAutoplay_timers (s : State) (h : TimerInv s) :
    (stopAutoplay s).timer = none ∧ (stopAutoplay s).scheduled = [] ∧
    (stopAutoplay s).nextHandle = s.nextHandle := by
  obtain ⟨h1, _, h3⟩ := clearIfTimer_timers s h
  simp [stopAutoplay, h1, h3]

theorem startAutoplay_timers (s : State) (h : TimerInv s) :
    (startAutoplay s).timer = some s.nextHandle ∧
    (startAutoplay s).scheduled = [s.nextHandle] ∧
    (startAutoplay s).nextHandle = s.nextHandle + 1 := by
  obtain ⟨h1, _, h3⟩ := clearIfTimer_timers s h
  simp [startAutoplay, h1, h3]

theorem stopAutoplay_inv (s : State) (h : TimerInv s) : TimerInv (stopAutoplay s) := by
  obtain ⟨h1, h2, h3⟩ := stopAutoplay_timers s h
  simp [TimerInv, h1, h2, h3, h.2.2]

theorem startAutoplay_inv (s : State) (h : TimerInv s) : TimerInv (startAutoplay s) := by
  obtain ⟨h1, h2, h3⟩ := startAutoplay_timers s h
  simp [TimerInv, h1, h2, h3, h.2.2]

theorem resetAutoplayTimer_timers (s : State) (h : TimerInv s) :
    (resetAutoplayTimer s).timer = some s.nextHandle ∧
    (resetAutoplayTimer s).scheduled = [s.nextHandle] ∧
    (resetAutoplayTimer s).nextHandle = s.nextHandle + 1 := by
  have h1 := startAutoplay_timers (stopAutoplay s) (stopAutoplay_inv s h)
  rw [(stopAutoplay_timers s h).2.2] at h1
  exact h1

theorem resetIfAutoplay_inv (s : State) (h : TimerInv s) : TimerInv (resetIfAutoplay s) := by
  unfold resetIfAutoplay resetAutoplayTimer
  split
  · exact startAutoplay_inv _ (stopAutoplay_inv s h)
  · exact h

theorem next_inv (s : State) (h : TimerInv s) : TimerInv (next s) :=
  resetIfAutoplay_inv _ (TimerInv_congr (by simp [sameTimers, updateSlider, resetZoom]) h)

theorem prev_inv (s : State) (h : TimerInv s) : TimerInv (prev s) :=
  resetIfAutoplay_inv _ (TimerInv_congr (by simp [sameTimers, updateSlider, resetZoom]) h)

theorem goTo_inv (idx : Int) (s : State) (h : TimerInv s) : TimerInv (goTo idx s) :=
  resetIfAutoplay_inv _ (TimerInv_congr (by simp [sameTimers, updateSlider, resetZoom]) h)

theorem closeFullscreen_sameTimers (s : State) : sameTimers s (closeFullscreen s) := by
  unfold closeFullscreen
  split <;> simp [sameTimers]

theorem zoomIn_sameTimers (s : State) : sameTimers s (zoomIn s) := by
  unfold zoomIn
  split <;> simp [sameTimers]

theorem zoomOut_sameTimers (s : State) : sameTimers s (zoomOut s) := by
  unfold zoomOut
  split <;> simp [sameTimers]

theorem imageClick_sameTimers (s : State) : sameTimers s (imageClick s) := by
  unfold imageClick
  split <;> simp [sameTimers, resetZoom]

theorem renderImages_sameTimers (s : State) : sameTimers s (renderImages s) := by
  unfold renderImages
  split <;> simp [sameTimers]

theorem toggleFullscreen_inv (s : State) (h : TimerInv s) : TimerInv (toggleFullscreen s) := by
  unfold toggleFullscreen
  split
  · exact h
  · split
    · exact TimerInv_congr (closeFullscreen_sameTimers s) h
    · simp only
      split
      · exact stopAutoplay_inv _ (TimerInv_congr (by simp [sameTimers]) h)
      · exact TimerInv_congr (by simp [sameTimers]) h

theorem handleTouchEnd_inv (s : State) (h : TimerInv s) : TimerInv (handleTouchEnd s) := by
  unfold handleTouchEnd
  split
  · exact h
  · have h1 : TimerInv { s with isDragging := false } := TimerInv_congr (by simp [sameTimers]) h
    simp only
    split
    · exact h1
    · split
      · exact prev_inv _ h1
      · exact next_inv _ h1

theorem keydown_inv (key : String) (s : State) (h : TimerInv s) : TimerInv (keydown key s) := by
  unfold keydown
  split
  · exact prev_inv s h
  · split
    · exact next_inv s h
    · split
      · exact TimerInv_congr (closeFullscreen_sameTimers s) h
      · split
        · exact TimerInv_congr (zoomIn_sameTimers s) h
        · split
          · exact TimerInv_congr (zoomOut_sameTimers s) h
          · split
            · exact toggleFullscreen_inv s h
            · exact h

theorem startLoad_foldl_sameTimers (total : Nat) (files : List File) :
    ∀ s : State, sameTimers s (files.foldl (startLoad total) s) := by
  induction files with
  | nil => intro s; simp [sameTimers]
  | cons f fs ih =>
    intro s
    have h1 : sameTimers s (startLoad total s f) := by
      unfold startLoad
      split <;> simp [sameTimers]
    have h2 := ih (startLoad total s f)
    simp only [List.foldl_cons]
    exact ⟨h2.1.trans h1.1, h2.2.1.trans h1.2.1, h2.2.2.trans h1.2.2⟩

theorem imageInputChange_sameTimers (files : List File) (s : State) :
    sameTimers s (imageInputChange files s) := by
  unfold imageInputChange
  split
  · have h := startLoad_foldl_sameTimers files.length files { s with images := [] }
    simpa [sameTimers] using h
  · have h := renderImages_sameTimers { s with images := defaultImages, currentIndex := some 0 }
    simpa [sameTimers, updateSlider, resetZoom] using h

theorem readerOnload_sameTimers (k : Nat) (s : State) : sameTimers s (readerOnload k s) := by
  unfold readerOnload
  split
  · simp [sameTimers]
  · simp only
    split
    · rename_i p _ _
      have h := renderImages_sameTimers
        { s with pending := s.pending.eraseIdx k, images := s.images ++ [p.result],
                 currentIndex := some 0 }
      simpa [sameTimers, updateSlider, resetZoom] using h
    · simp [sameTimers]

theorem step_inv (s : State) (e : Event) (h : TimerInv s) : TimerInv (step s e) := by
  cases e with
  | domContentLoaded =>
    exact startAutoplay_inv _ (TimerInv_congr
      (by simpa [sameTimers, updateSlider, resetZoom] using renderImages_sameTimers s) h)
  | imageInputChange files => exact TimerInv_congr (imageInputChange_sameTimers files s) h
  | readerOnload k => exact TimerInv_congr (readerOnload_sameTimers k s) h
  | imageClick k =>
    simp only [step]
    split
    · exact TimerInv_congr (imageClick_sameTimers s) h
    · exact h
  | dotClick idx => exact goTo_inv _ s h
  | prev => exact prev_inv s h
  | next => exact next_inv s h
  | goTo idx => exact goTo_inv idx s h
  | startAutoplay => exact startAutoplay_inv s h
  | stopAutoplay => exact stopAutoplay_inv s h
  | toggleAutoplay =>
    simp only [step, toggleAutoplay]
    split
    · exact startAutoplay_inv _ (TimerInv_congr (by simp [sameTimers]) h)
    · exact stopAutoplay_inv _ (TimerInv_congr (by simp [sameTimers]) h)
  | tick k =>
    simp only [step, tick]
    split
    · split
      · exact next_inv s h
      · exact h
    · exact h
  | touchStart x => exact TimerInv_congr (by simp [sameTimers, step, handleTouchStart]) h
  | touchMove x =>
    simp only [step, handleTouchMove]
    split
    · exact h
    · exact TimerInv_congr (by simp [sameTimers]) h
  | touchEnd => exact handleTouchEnd_inv s h
  | keydown key => exact keydown_inv key s h
  | visibilityChange hidden =>
    simp only [step, visibilityChange]
    split
    · split
      · exact stopAutoplay_inv s h
      · exact h
    · split
      · exact startAutoplay_inv s h
      · exact h
  | zoomIn => exact TimerInv_congr (zoomIn_sameTimers s) h
  | zoomOut => exact TimerInv_congr (zoomOut_sameTimers s) h
  | resetZoom => exact TimerInv_congr (by simp [sameTimers, step, resetZoom]) h
  | toggleFullscreen => exact toggleFullscreen_inv s h
  | closeButtonClick => exact TimerInv_congr (closeFullscreen_sameTimers s) h
  | backdropClick k =>
    simp only [step, backdropClick]
    split
    · exact h
    · split
      · exact startAutoplay_inv _ (TimerInv_congr (closeFullscreen_sameTimers s) h)
      · exact h

theorem initialState_inv : TimerInv initialState := by
  simp [TimerInv, initialState]

theorem run_inv (evs : List Event) : ∀ s : State, TimerInv s → TimerInv (run s evs) := by
  induction evs with
  | nil => intro s h; simpa [run] using h
  | cons e es ih => intro s h; exact ih _ (step_inv s e h)

theorem reachable_inv {s : State} (h : Reachable s) : TimerInv s := by
  obtain ⟨evs, rfl⟩ := h
  exact run_inv evs initialState initialState_inv

theorem stopAutoplay_of_stopped (s : State) (h : s.timer = none) : stopAutoplay s = s := by
  cases s
  simp_all [stopAutoplay, clearIfTimer]

/-- C3: in every state reachable from the initial state by any sequence of
events (among them `startAutoplay()`, `stopAutoplay()`, the autoplay toggle,
`next()`, `prev()`, `goTo(i)`, timer ticks, visibility changes, opening and
closing the fullscreen overlay) at most one interval timer is scheduled, and
`timer` is non-null exactly when a timer is scheduled, which is then the one it
holds.  Two `startAutoplay()` calls in a row leave exactly one timer scheduled,
and `stopAutoplay()` changes nothing when `timer` is already null. -/
theorem C3_at_most_one_timer (s : State) (hr : Reachable s) :
    s.scheduled.length ≤ 1 ∧
    (s.timer ≠ none ↔ s.scheduled ≠ []) ∧
    (∀ h : Nat, s.timer = some h ↔ s.scheduled = [h]) ∧
    (startAutoplay (startAutoplay s)).scheduled.length = 1 ∧
    (startAutoplay (startAutoplay s)).scheduled.head? = (startAutoplay (startAutoplay s)).timer ∧
    (s.timer = none → stopAutoplay s = s) := by
  have hinv := reachable_inv hr
  have hsch := hinv.1
  have h2 := startAutoplay_timers _ (startAutoplay_inv s hinv)
  refine ⟨?_, ?_, ?_, ?_, ?_, stopAutoplay_of_stopped s⟩
  · rw [hsch]; cases s.timer <;> simp
  · rw [hsch]; cases s.timer <;> simp
  · intro h; rw [hsch]; cases s.timer <;> simp
  · rw [h2.2.1]; rfl
  · rw [h2.2.1, h2.1]; rfl

/-- The statement of C3 at the state reached by loading the page and then
stopping autoplay. -/
theorem C3_at_most_one_timer_witness :
    (run initialState [Event.domContentLoaded, Event.stopAutoplay]).timer = none ∧
    stopAutoplay (run initialState [Event.domContentLoaded, Event.stopAutoplay]) =
      run initialState [Event.domContentLoaded, Event.stopAutoplay] :=
  ⟨by decide,
   (C3_at_most_one_timer (run initialState [Event.domContentLoaded, Event.stopAutoplay])
      ⟨[Event.domContentLoaded, Event.stopAutoplay], rfl⟩).2.2.2.2.2 (by decide)⟩

/-! ## The autoplay tick -/

theorem next_timers_of_autoplay (s : State) (hinv : TimerInv s) (ha : s.autoplay = true) :
    (next s).timer = some s.nextHandle ∧ (next s).scheduled = [s.nextHandle] ∧
    (next s).nextHandle = s.nextHandle + 1 := by
  have h1 : TimerInv
      (updateSlider { s with currentIndex := jsRem (jsAdd s.currentIndex 1) s.images.length }) :=
    TimerInv_congr (by simp [sameTimers, updateSlider, resetZoom]) hinv
  have h2 := resetAutoplayTimer_timers _ h1
  simpa [next, resetIfAutoplay, updateSlider, resetZoom, ha] using h2

/-- In a reachable state with autoplay enabled, the firing of the scheduled
timer `h` produces exactly the state a `next()` call produces, index and zoom
included, and with it the timer reset at the end of `next()`: `h` was the handle
in `timer`, it is cancelled, and one fresh timer is scheduled and stored. -/
theorem tick_eq_next (s : State) (h : Nat) (hr : Reachable s)
    (ha : s.autoplay = true) (hs : h ∈ s.scheduled) :
    tick h s = next s ∧
    s.timer = some h ∧
    (tick h s).timer = some s.nextHandle ∧
    (tick h s).scheduled = [s.nextHandle] ∧
    s.nextHandle ≠ h := by
  have hinv := reachable_inv hr
  have ht : tick h s = next s := by simp [tick, hs, ha]
  have hth : s.timer = some h := by
    have hsch := hinv.1
    rw [hsch] at hs
    cases hst : s.timer with
    | none => simp [hst] at hs
    | some k => simp [hst] at hs; simp [hs]
  have hn := next_timers_of_autoplay s hinv ha
  refine ⟨ht, hth, ?_, ?_, ?_⟩
  · rw [ht]; exact hn.1
  · rw [ht]; exact hn.2.1
  · have := (hinv.2.1 h hth).2
    omega

/-- C4, the code at the failing input.  On the loaded page autoplay is on and
timer `1` is the one scheduled and held in `timer`.  When it fires, the state is
that of a `next()` call, timer reset included: timer `1` is cancelled and a new
timer, `2`, is scheduled and stored, so neither the handle nor the scheduled
timer is the same after the tick. -/
theorem C4_tick_changes_timer :
    loaded.autoplay = true ∧ loaded.timer = some 1 ∧ loaded.scheduled = [1] ∧
    tick 1 loaded = next loaded ∧
    1 ∉ (tick 1 loaded).scheduled ∧
    (tick 1 loaded).timer = some 2 ∧ (tick 1 loaded).scheduled = [2] ∧
    ¬ ((tick 1 loaded).timer = loaded.timer ∧ (tick 1 loaded).scheduled = loaded.scheduled) := by
  refine ⟨by decide, by decide, by decide, ?_, by decide, by decide, by decide, by decide⟩
  have hs : 1 ∈ loaded.scheduled := by decide
  have ha : loaded.autoplay = true := by decide
  simp [tick, hs, ha]

/-! ## Zoom -/

theorem ZoomInv_congr {s t : State} (h : t.currentZoom = s.currentZoom) (hs : ZoomInv s) :
    ZoomInv t := by
  simpa [ZoomInv, h] using hs

theorem ZoomInv_of_one {s : State} (h : s.currentZoom = 1) : ZoomInv s :=
  Or.inl h

theorem stopAutoplay_currentZoom (s : State) : (stopAutoplay s).currentZoom = s.currentZoom :=
  (stopAutoplay_frame s).2.2.2.2.2.2.1

theorem startAutoplay_currentZoom (s : State) : (startAutoplay s).currentZoom = s.currentZoom :=
  (startAutoplay_frame s).2.2.2.2.2.2.1

theorem resetIfAutoplay_currentZoom (s : State) :
    (resetIfAutoplay s).currentZoom = s.currentZoom :=
  (resetIfAutoplay_frame s).2.2.2.2.2.2.1

theorem next_currentZoom (s : State) : (next s).currentZoom = 1 := by
  simp [next, resetIfAutoplay_currentZoom, updateSlider, resetZoom]

theorem prev_currentZoom (s : State) : (prev s).currentZoom = 1 := by
  simp [prev, resetIfAutoplay_currentZoom, updateSlider, resetZoom]

theorem goTo_currentZoom (idx : Int) (s : State) : (goTo idx s).currentZoom = 1 := by
  simp [goTo, resetIfAutoplay_currentZoom, updateSlider, resetZoom]

theorem renderImages_currentZoom (s : State) : (renderImages s).currentZoom = s.currentZoom := by
  unfold renderImages
  split <;> rfl

theorem closeFullscreen_currentZoom (s : State) :
    (closeFullscreen s).currentZoom = s.currentZoom := by
  unfold closeFullscreen
  split <;> rfl

theorem zoomIn_level (s : State) (h : ZoomInv s) :
    (zoomIn s).currentZoom = min (s.currentZoom + zoomStep) 3 ∧ ZoomInv (zoomIn s) := by
  unfold ZoomInv at h
  rcases h with h | h | h | h | h <;>
    simp [zoomIn, ZoomInv, h, maxZoom, zoomStep] <;> norm_num

theorem zoomOut_level (s : State) (h : ZoomInv s) :
    (zoomOut s).currentZoom = max (s.currentZoom - zoomStep) 1 ∧ ZoomInv (zoomOut s) := by
  unfold ZoomInv at h
  rcases h with h | h | h | h | h <;>
    simp [zoomOut, ZoomInv, h, minZoom, zoomStep] <;> norm_num

theorem imageClick_level (s : State) :
    (imageClick s).currentZoom = if s.currentZoom > 1 then 1 else 2 := by
  unfold imageClick
  split <;> simp [resetZoom]

theorem imageClick_zoomInv (s : State) : ZoomInv (imageClick s) := by
  unfold ZoomInv
  rw [imageClick_level]
  split <;> simp

theorem toggleFullscreen_currentZoom (s : State) :
    (toggleFullscreen s).currentZoom = s.currentZoom := by
  unfold toggleFullscreen
  split
  · rfl
  · split
    · exact closeFullscreen_currentZoom s
    · simp only
      split
      · rw [stopAutoplay_currentZoom]
      · rfl

theorem handleTouchEnd_zoomInv (s : State) (h : ZoomInv s) : ZoomInv (handleTouchEnd s) := by
  unfold handleTouchEnd
  split
  · exact h
  · simp only
    split
    · exact ZoomInv_congr rfl h
    · split
      · exact ZoomInv_of_one (prev_currentZoom _)
      · exact ZoomInv_of_one (next_currentZoom _)

theorem keydown_zoomInv (key : String) (s : State) (h : ZoomInv s) :
    ZoomInv (keydown key s) := by
  unfold keydown
  split
  · exact ZoomInv_of_one (prev_currentZoom s)
  · split
    · exact ZoomInv_of_one (next_currentZoom s)
    · split
      · exact ZoomInv_congr (closeFullscreen_currentZoom s) h
      · split
        · exact (zoomIn_level s h).2
        · split
          · exact (zoomOut_level s h).2
          · split
            · exact ZoomInv_congr (toggleFullscreen_currentZoom s) h
            · exact h

theorem startLoad_foldl_currentZoom (total : Nat) (files : List File) :
    ∀ s : State, (files.foldl (startLoad total) s).currentZoom = s.currentZoom := by
  induction files with
  | nil => intro s; rfl
  | cons f fs ih =>
    intro s
    have h1 : (startLoad total s f).currentZoom = s.currentZoom := by
      unfold startLoad
      split <;> rfl
    simp only [List.foldl_cons]
    rw [ih, h1]

theorem imageInputChange_zoomInv (files : List File) (s : State) (h : ZoomInv s) :
    ZoomInv (imageInputChange files s) := by
  unfold imageInputChange
  split
  · exact ZoomInv_congr (startLoad_foldl_currentZoom _ files _) (ZoomInv_congr rfl h)
  · exact ZoomInv_of_one rfl

theorem readerOnload_zoomInv (k : Nat) (s : State) (h : ZoomInv s) :
    ZoomInv (readerOnload k s) := by
  unfold readerOnload
  split
  · exact h
  · simp only
    split
    · exact ZoomInv_of_one rfl
    · exact ZoomInv_congr rfl h

theorem step_zoomInv (s : State) (e : Event) (h : ZoomInv s) : ZoomInv (step s e) := by
  cases e with
  | domContentLoaded =>
    exact ZoomInv_of_one (by simp [step, domContentLoaded, startAutoplay_currentZoom,
      updateSlider, resetZoom])
  | imageInputChange files => exact imageInputChange_zoomInv files s h
  | readerOnload k => exact readerOnload_zoomInv k s h
  | imageClick k =>
    simp only [step]
    split
    · exact imageClick_zoomInv s
    · exact h
  | dotClick idx => exact ZoomInv_of_one (goTo_currentZoom _ s)
  | prev => exact ZoomInv_of_one (prev_currentZoom s)
  | next => exact ZoomInv_of_one (next_currentZoom s)
  | goTo idx => exact ZoomInv_of_one (goTo_currentZoom idx s)
  | startAutoplay => exact ZoomInv_congr (startAutoplay_currentZoom s) h
  | stopAutoplay => exact ZoomInv_congr (stopAutoplay_currentZoom s) h
  | toggleAutoplay =>
    simp only [step, toggleAutoplay]
    split
    · exact ZoomInv_congr (startAutoplay_currentZoom _) (ZoomInv_congr rfl h)
    · exact ZoomInv_congr (stopAutoplay_currentZoom _) (ZoomInv_congr rfl h)
  | tick k =>
    simp only [step, tick]
    split
    · split
      · exact ZoomInv_of_one (next_currentZoom s)
      · exact h
    · exact h
  | touchStart x => exact ZoomInv_congr rfl h
  | touchMove x =>
    simp only [step, handleTouchMove]
    split
    · exact h
    · exact ZoomInv_congr rfl h
  | touchEnd => exact handleTouchEnd_zoomInv s h
  | keydown key => exact keydown_zoomInv key s h
  | visibilityChange hidden =>
    simp only [step, visibilityChange]
    split
    · split
      · exact ZoomInv_congr (stopAutoplay_currentZoom s) h
      · exact h
    · split
      · exact ZoomInv_congr (startAutoplay_currentZoom s) h
      · exact h
  | zoomIn => exact (zoomIn_level s h).2
  | zoomOut => exact (zoomOut_level s h).2
  | resetZoom => exact ZoomInv_of_one rfl
  | toggleFullscreen => exact ZoomInv_congr (toggleFullscreen_currentZoom s) h
  | closeButtonClick => exact ZoomInv_congr (closeFullscreen_currentZoom s) h
  | backdropClick k =>
    simp only [step, backdropClick]
    split
    · exact h
    · split
      · exact ZoomInv_congr ((startAutoplay_currentZoom _).trans (closeFullscreen_currentZoom s)) h
      · exact h

theorem run_zoomInv (evs : List Event) : ∀ s : State, ZoomInv s → ZoomInv (run s evs) := by
  induction evs with
  | nil => intro s h; simpa [run] using h
  | cons e es ih => intro s h; exact ih _ (step_zoomInv s e h)

theorem reachable_zoomInv {s : State} (h : Reachable s) : ZoomInv s := by
  obtain ⟨evs, rfl⟩ := h
  exact run_zoomInv evs initialState (ZoomInv_of_one rfl)

/-- C7: the initial zoom level is `1.0` and the step `0.5`; in every state
reachable from the initial state by any sequence of events (among them
`zoomIn()`, `zoomOut()`, `resetZoom()`, image clicks and slide navigation) the
zoom level lies in `[1.0, 3.0]`, `zoomIn()` sets it to `min(level + step, 3.0)`
and `zoomOut()` sets it to `max(level - step, 1.0)`. -/
theorem C7_zoom_bounds (s : State) (hr : Reachable s) :
    initialState.currentZoom = 1 ∧ zoomStep = 1 / 2 ∧
    1 ≤ s.currentZoom ∧ s.currentZoom ≤ 3 ∧
    (zoomIn s).currentZoom = min (s.currentZoom + zoomStep) 3 ∧
    (zoomOut s).currentZoom = max (s.currentZoom - zoomStep) 1 := by
  have hz := reachable_zoomInv hr
  refine ⟨rfl, rfl, ?_, ?_, (zoomIn_level s hz).1, (zoomOut_level s hz).1⟩
  · rcases hz with h | h | h | h | h <;> rw [h] <;> norm_num
  · rcases hz with h | h | h | h | h <;> rw [h] <;> norm_num

/-- The statement of C7 at the state reached by loading the page, clicking the
first image and zooming in twice. -/
theorem C7_zoom_bounds_witness :
    (zoomIn (run initialState
      [Event.domContentLoaded, Event.imageClick 0, Event.zoomIn, Event.zoomIn])).currentZoom =
    min ((run initialState
      [Event.domContentLoaded, Event.imageClick 0, Event.zoomIn, Event.zoomIn]).currentZoom
        + zoomStep) 3 :=
  (C7_zoom_bounds _
    ⟨[Event.domContentLoaded, Event.imageClick 0, Event.zoomIn, Event.zoomIn], rfl⟩).2.2.2.2.1

/-- C8: a click on an image sets the zoom level to exactly `1.0` when the level
is above `1.0` and to exactly `2.0` otherwise, whatever the step; so from level
`1.0` one click gives `2.0` and a second click gives `1.0`. -/
theorem C8_image_click_toggle (s : State) :
    (s.currentZoom > 1 → (imageClick s).currentZoom = 1) ∧
    (¬ s.currentZoom > 1 → (imageClick s).currentZoom = 2) ∧
    (s.currentZoom = 1 →
      (imageClick s).currentZoom = 2 ∧ (imageClick (imageClick s)).currentZoom = 1) := by
  refine ⟨?_, ?_, ?_⟩
  · intro h; simp [imageClick_level, h]
  · intro h; simp [imageClick_level, h]
  · intro h
    have h1 : (imageClick s).currentZoom = 2 := by simp [imageClick_level, h]
    refine ⟨h1, ?_⟩
    rw [imageClick_level, h1]
    norm_num

/-- The statement of C8 on the initial state, whose zoom level is `1.0`. -/
theorem C8_image_click_toggle_witness :
    initialState.currentZoom = 1 ∧
    (imageClick initialState).currentZoom = 2 ∧
    (imageClick (imageClick initialState)).currentZoom = 1 :=
  ⟨rfl, (C8_image_click_toggle initialState).2.2 rfl⟩

/-! ## Double rounding -/

theorem quantum_pos (q : ℚ) : 0 < quantum q := by
  unfold quantum
  positivity

theorem floor_le_roundHalfEven (t : ℚ) : ⌊t⌋ ≤ roundHalfEven t := by
  unfold roundHalfEven
  split
  · exact le_refl _
  · split
    · omega
    · split <;> omega

theorem roundHalfEven_le_ceil (t : ℚ) : roundHalfEven t ≤ ⌈t⌉ := by
  unfold roundHalfEven
  split
  · exact Int.floor_le_ceil t
  · rename_i h
    have hne : (⌊t⌋ : ℚ) ≠ t := by
      intro he
      apply h
      rw [he]; norm_num
    have hlt : (⌊t⌋ : ℚ) < t := lt_of_le_of_ne (Int.floor_le t) hne
    have hc : ⌊t⌋ + 1 ≤ ⌈t⌉ := by
      have : ⌊t⌋ < ⌈t⌉ := by
        rw [Int.lt_ceil]
        exact hlt
      omega
    split
    · exact hc
    · split
      · exact Int.floor_le_ceil t
      · exact hc

theorem toDouble_lower (q : ℚ) (M : ℤ) (h : (M : ℚ) * quantum q ≤ q) :
    (M : ℚ) * quantum q ≤ toDouble q := by
  have hu := quantum_pos q
  have h1 : (M : ℚ) ≤ q / quantum q := by rwa [le_div_iff₀ hu]
  have h2 : M ≤ ⌊q / quantum q⌋ := Int.le_floor.mpr h1
  have h3 : M ≤ roundHalfEven (q / quantum q) := le_trans h2 (floor_le_roundHalfEven _)
  unfold toDouble
  have h4 : (M : ℚ) ≤ (roundHalfEven (q / quantum q) : ℚ) := by exact_mod_cast h3
  exact mul_le_mul_of_nonneg_right h4 (le_of_lt hu)

theorem toDouble_upper (q : ℚ) (M : ℤ) (h : q ≤ (M : ℚ) * quantum q) :
    toDouble q ≤ (M : ℚ) * quantum q := by
  have hu := quantum_pos q
  have h1 : q / quantum q ≤ (M : ℚ) := by rwa [div_le_iff₀ hu]
  have h2 : ⌈q / quantum q⌉ ≤ M := Int.ceil_le.mpr h1
  have h3 : roundHalfEven (q / quantum q) ≤ M := le_trans (roundHalfEven_le_ceil _) h2
  unfold toDouble
  have h4 : (roundHalfEven (q / quantum q) : ℚ) ≤ (M : ℚ) := by exact_mod_cast h3
  exact mul_le_mul_of_nonneg_right h4 (le_of_lt hu)

theorem toDouble_exact (q : ℚ) (M : ℤ) (h : q = (M : ℚ) * quantum q) : toDouble q = q := by
  apply le_antisymm
  · calc toDouble q ≤ (M : ℚ) * quantum q := toDouble_upper q M (le_of_eq h)
      _ = q := h.symm
  · calc q = (M : ℚ) * quantum q := h
      _ ≤ toDouble q := toDouble_lower q M (le_of_eq h.symm)

theorem quantum_le_of_lt (q : ℚ) (h : |q| < 2 ^ (53 : ℕ)) :
    max (Int.log 2 |q|) (-1022) ≤ 52 := by
  rcases eq_or_lt_of_le (abs_nonneg q) with h0 | h0
  · rw [← h0, Int.log_zero_right]; norm_num
  · have h1 : Int.log 2 |q| < 53 := by
      rw [← Int.lt_zpow_iff_log_lt (by norm_num) h0]
      exact_mod_cast h
    have : Int.log 2 |q| ≤ 52 := by omega
    exact max_le this (by norm_num)

theorem scaled_mul_quantum (q : ℚ) (c : ℤ) (h : max (Int.log 2 |q|) (-1022) ≤ 52) :
    ((c * 2 ^ (52 - max (Int.log 2 |q|) (-1022)).toNat : ℤ) : ℚ) * quantum q = c := by
  unfold quantum
  set e := max (Int.log 2 |q|) (-1022) with he
  have hk : ((52 - e).toNat : ℤ) = 52 - e := Int.toNat_of_nonneg (by omega)
  have h2 : ((2 : ℚ) ^ (52 - e).toNat) = (2 : ℚ) ^ (52 - e) := by
    rw [← zpow_natCast, hk]
  push_cast
  rw [h2, mul_assoc, ← zpow_add₀ (by norm_num : (2 : ℚ) ≠ 0)]
  have : 52 - e + (e - 52) = 0 := by ring
  rw [this]; simp

theorem toDouble_int (n : ℤ) (h : |n| < 2 ^ (53 : ℕ)) : toDouble (n : ℚ) = n := by
  have hq : |(n : ℚ)| < 2 ^ (53 : ℕ) := by exact_mod_cast h
  have he := quantum_le_of_lt (n : ℚ) hq
  exact toDouble_exact _ _ (scaled_mul_quantum (n : ℚ) n he).symm

theorem two_zpow_log_le (q : ℚ) (h0 : 0 < |q|) (h : 53 ≤ max (Int.log 2 |q|) (-1022)) :
    ((2 ^ (52 : ℕ) : ℤ) : ℚ) * quantum q ≤ |q| ∧ (50 : ℚ) ≤ ((2 ^ (52 : ℕ) : ℤ) : ℚ) * quantum q := by
  have hmax : max (Int.log 2 |q|) (-1022) = Int.log 2 |q| := by
    apply max_eq_left
    rcases le_max_iff.mp h with h1 | h1 <;> omega
  have hq : ((2 ^ (52 : ℕ) : ℤ) : ℚ) * quantum q = (2 : ℚ) ^ (Int.log 2 |q|) := by
    unfold quantum
    rw [hmax]
    have h52 : ((2 ^ (52 : ℕ) : ℤ) : ℚ) = (2 : ℚ) ^ (52 : ℤ) := by norm_num
    rw [h52, ← zpow_add₀ (by norm_num : (2 : ℚ) ≠ 0)]
    congr 1
    ring
  rw [hq]
  refine ⟨by exact_mod_cast Int.zpow_log_le_self (by norm_num) h0, ?_⟩
  have h53 : (53 : ℤ) ≤ Int.log 2 |q| := by rw [← hmax]; exact h
  have : (2 : ℚ) ^ (53 : ℤ) ≤ (2 : ℚ) ^ (Int.log 2 |q|) :=
    zpow_le_zpow_right₀ (by norm_num) h53
  calc (50 : ℚ) ≤ (2 : ℚ) ^ (53 : ℤ) := by norm_num
    _ ≤ _ := this

theorem toDouble_ge_fifty (q : ℚ) (h : 50 ≤ q) : 50 ≤ toDouble q := by
  have hq0 : 0 < q := by linarith
  have habs : |q| = q := abs_of_pos hq0
  by_cases he : max (Int.log 2 |q|) (-1022) ≤ 52
  · have hm := scaled_mul_quantum q 50 he
    have := toDouble_lower q _ (by rw [hm]; exact_mod_cast h)
    rw [hm] at this
    exact_mod_cast this
  · have h53 : 53 ≤ max (Int.log 2 |q|) (-1022) := by omega
    obtain ⟨h1, h2⟩ := two_zpow_log_le q (by rw [habs]; exact hq0) h53
    rw [habs] at h1
    exact le_trans h2 (toDouble_lower q _ h1)

theorem toDouble_le_neg_fifty (q : ℚ) (h : q ≤ -50) : toDouble q ≤ -50 := by
  have hq0 : q < 0 := by linarith
  have habs : |q| = -q := abs_of_neg hq0
  by_cases he : max (Int.log 2 |q|) (-1022) ≤ 52
  · have hm := scaled_mul_quantum q (-50) he
    have := toDouble_upper q _ (by rw [hm]; exact_mod_cast h)
    rw [hm] at this
    exact_mod_cast this
  · have h53 : 53 ≤ max (Int.log 2 |q|) (-1022) := by omega
    obtain ⟨h1, h2⟩ := two_zpow_log_le q (by rw [habs]; linarith) h53
    rw [habs] at h1
    have h3 : q ≤ ((-(2 ^ (52 : ℕ)) : ℤ) : ℚ) * quantum q := by
      push_cast at h1 ⊢
      linarith
    have h4 := toDouble_upper q _ h3
    push_cast at h4 h2
    linarith

theorem quantum_of_binade (q : ℚ) (e : ℤ) (he : -1022 ≤ e) (h0 : 0 < |q|)
    (h1 : (2 : ℚ) ^ e ≤ |q|) (h2 : |q| < (2 : ℚ) ^ (e + 1)) : quantum q = 2 ^ (e - 52) := by
  have hl : Int.log 2 |q| = e := by
    apply le_antisymm
    · have := (Int.lt_zpow_iff_log_lt (by norm_num : 1 < 2) h0).mp (by exact_mod_cast h2)
      omega
    · exact (Int.zpow_le_iff_le_log (by norm_num : 1 < 2) h0).mp (by exact_mod_cast h1)
  unfold quantum
  rw [hl, max_eq_left he]

theorem toDouble_rounds_up_to_fifty :
    toDouble (3539547832136499 / 2 ^ 46 - 5404319552844595 / 2 ^ 54) = 50 := by
  have hq : quantum (3539547832136499 / 2 ^ 46 - 5404319552844595 / 2 ^ 54) = 2 ^ ((5 : ℤ) - 52) := by
    apply quantum_of_binade _ 5 (by norm_num)
    · rw [abs_of_pos (by norm_num)]; norm_num
    · rw [abs_of_pos (by norm_num)]; norm_num
    · rw [abs_of_pos (by norm_num)]; norm_num
  have hf : ⌊(3539547832136499 / 2 ^ 46 - 5404319552844595 / 2 ^ 54 : ℚ) / 2 ^ ((5 : ℤ) - 52)⌋
      = 7036874417766399 := by
    rw [Int.floor_eq_iff]
    constructor <;> norm_num
  unfold toDouble
  rw [hq]
  unfold roundHalfEven
  rw [hf]
  norm_num

theorem doubleSub_int (a b : ℤ) (h : |a - b| < 2 ^ (53 : ℕ)) :
    doubleSub (a : ℚ) (b : ℚ) = (a : ℚ) - (b : ℚ) := by
  have h1 := toDouble_int (a - b) h
  unfold doubleSub
  push_cast at h1
  exact h1

/-! ## Gestures -/

theorem handleTouchEnd_of_dragging (s : State) (h : s.isDragging = true) :
    handleTouchEnd s =
      if |doubleSub s.endX s.startX| < threshold then { s with isDragging := false }
      else if doubleSub s.endX s.startX > 0 then prev { s with isDragging := false }
      else next { s with isDragging := false } := by
  simp [handleTouchEnd, h]

theorem handleTouchMove_foldl (moves : List ℚ) :
    ∀ s : State, s.isDragging = true →
      ∃ e : ℚ, moves.foldl (fun st m => handleTouchMove m st) s = { s with endX := e } := by
  induction moves with
  | nil => intro s _; exact ⟨s.endX, rfl⟩
  | cons m ms ih =>
    intro s h
    have h1 : handleTouchMove m s = { s with endX := m } := by simp [handleTouchMove, h]
    obtain ⟨e, he⟩ := ih { s with endX := m } h
    exact ⟨e, by simp only [List.foldl_cons, h1, he]⟩

theorem moves_then_last (x y : ℚ) (moves : List ℚ) (s : State) :
    (moves ++ [y]).foldl (fun st m => handleTouchMove m st) (handleTouchStart x s) =
      { s with startX := x, endX := y, isDragging := true } := by
  obtain ⟨e, he⟩ := handleTouchMove_foldl moves (handleTouchStart x s) rfl
  rw [List.foldl_append, he]
  simp [handleTouchMove, handleTouchStart]

theorem dragGesture_eq (x y : ℚ) (moves : List ℚ) (s : State) :
    dragGesture x (moves ++ [y]) s =
      if |doubleSub y x| < threshold then { s with startX := x, endX := y, isDragging := false }
      else if doubleSub y x > 0 then prev { s with startX := x, endX := y, isDragging := false }
      else next { s with startX := x, endX := y, isDragging := false } := by
  unfold dragGesture
  rw [moves_then_last, handleTouchEnd_of_dragging _ rfl]

theorem dragGesture_idle (x y : ℚ) (moves : List ℚ) (s : State)
    (h : |doubleSub y x| < 50) :
    dragGesture x (moves ++ [y]) s = { s with startX := x, endX := y, isDragging := false } := by
  rw [dragGesture_eq, if_pos (by simpa [threshold] using h)]

theorem dragGesture_prev (x y : ℚ) (moves : List ℚ) (s : State) (h : doubleSub y x ≥ 50) :
    dragGesture x (moves ++ [y]) s =
      prev { s with startX := x, endX := y, isDragging := false } := by
  have h1 : ¬ |doubleSub y x| < threshold := by
    rw [threshold, abs_lt]; intro hc; linarith [hc.2]
  rw [dragGesture_eq, if_neg h1, if_pos (by linarith)]

theorem dragGesture_next (x y : ℚ) (moves : List ℚ) (s : State) (h : doubleSub y x ≤ -50) :
    dragGesture x (moves ++ [y]) s =
      next { s with startX := x, endX := y, isDragging := false } := by
  have h1 : ¬ |doubleSub y x| < threshold := by
    rw [threshold, abs_lt]; intro hc; linarith [hc.1]
  rw [dragGesture_eq, if_neg h1, if_neg (by linarith)]

theorem next_isDragging (s : State) : (next s).isDragging = s.isDragging := by
  simp [next, (resetIfAutoplay_frame _).2.2.2.2.2.1, updateSlider, resetZoom]

theorem prev_isDragging (s : State) : (prev s).isDragging = s.isDragging := by
  simp [prev, (resetIfAutoplay_frame _).2.2.2.2.2.1, updateSlider, resetZoom]

/-- The threshold test reads the rounded difference.  For the doubles nearest to
`0.3` and to `50.3` the exact difference is below 50 and the double difference
is exactly 50: the gesture counts as a swipe and `prev()` is called. -/
theorem dragGesture_rounded_difference (s : State) :
    (3539547832136499 / 2 ^ 46 - 5404319552844595 / 2 ^ 54 : ℚ) < 50 ∧
    doubleSub (3539547832136499 / 2 ^ 46) (5404319552844595 / 2 ^ 54) = 50 ∧
    dragGesture (5404319552844595 / 2 ^ 54) [3539547832136499 / 2 ^ 46] s =
      prev { s with startX := 5404319552844595 / 2 ^ 54, endX := 3539547832136499 / 2 ^ 46,
                    isDragging := false } := by
  have hd : doubleSub (3539547832136499 / 2 ^ 46) (5404319552844595 / 2 ^ 54) = 50 :=
    toDouble_rounds_up_to_fifty
  refine ⟨by norm_num, hd, ?_⟩
  have h := dragGesture_prev (5404319552844595 / 2 ^ 54) (3539547832136499 / 2 ^ 46) [] s
    (by rw [hd])
  simpa using h

/-- C6: for a gesture `onDragStart(x)`, any moves, a last move `onDragMove(y)`,
then `onDragEnd()`, from any state, with `diff` the difference `y - x` as the
script computes it (in doubles) and threshold 50: when `|diff| < 50` nothing
but the gesture variables changes (no navigation); when `diff >= 50` the result
is that of one `prev()` call; when `diff <= -50` it is that of one `next()`
call; in all cases `isDragging` is false afterwards.  The two swipe cases hold
for the exact difference as well, and so does the first case for integer pixel
coordinates, on which the subtraction is exact.  From 100 to 120 there is no
navigation, from 100 to 200 `prev()` is called. -/
theorem C6_swipe_threshold (s : State) (x y : ℚ) (moves : List ℚ) :
    threshold = 50 ∧
    (|doubleSub y x| < 50 → dragGesture x (moves ++ [y]) s =
        { s with startX := x, endX := y, isDragging := false }) ∧
    (doubleSub y x ≥ 50 → dragGesture x (moves ++ [y]) s =
        prev { s with startX := x, endX := y, isDragging := false }) ∧
    (doubleSub y x ≤ -50 → dragGesture x (moves ++ [y]) s =
        next { s with startX := x, endX := y, isDragging := false }) ∧
    (y - x ≥ 50 → dragGesture x (moves ++ [y]) s =
        prev { s with startX := x, endX := y, isDragging := false }) ∧
    (y - x ≤ -50 → dragGesture x (moves ++ [y]) s =
        next { s with startX := x, endX := y, isDragging := false }) ∧
    (∀ a b : ℤ, |b - a| < 50 → dragGesture (a : ℚ) (moves ++ [(b : ℚ)]) s =
        { s with startX := (a : ℚ), endX := (b : ℚ), isDragging := false }) ∧
    (dragGesture x (moves ++ [y]) s).isDragging = false ∧
    dragGesture 100 [120] s = { s with startX := 100, endX := 120, isDragging := false } ∧
    dragGesture 100 [200] s = prev { s with startX := 100, endX := 200, isDragging := false } := by
  refine ⟨rfl, dragGesture_idle x y moves s, dragGesture_prev x y moves s,
    dragGesture_next x y moves s, ?_, ?_, ?_, ?_, ?_, ?_⟩
  · intro h
    exact dragGesture_prev x y moves s (toDouble_ge_fifty _ h)
  · intro h
    exact dragGesture_next x y moves s (toDouble_le_neg_fifty _ h)
  · intro a b h
    have hlt : |b - a| < 2 ^ (53 : ℕ) := lt_trans h (by norm_num)
    have hd := doubleSub_int b a hlt
    apply dragGesture_idle
    rw [hd]
    exact_mod_cast h
  · rw [dragGesture_eq]
    split
    · rfl
    · split
      · rw [prev_isDragging]
      · rw [next_isDragging]
  · have hd := doubleSub_int 120 100 (by norm_num)
    push_cast at hd
    have h := dragGesture_idle 100 120 [] s (by rw [hd]; norm_num [abs_lt])
    simpa using h
  · have hd := doubleSub_int 200 100 (by norm_num)
    push_cast at hd
    have h := dragGesture_prev 100 200 [] s (by rw [hd]; norm_num)
    simpa using h

/-- The statement of C6 for a swipe to the left on the loaded page: start at 300,
moves to 280 and 240, end; `next()` is called. -/
theorem C6_swipe_threshold_witness :
    (240 : ℚ) - 300 ≤ -50 ∧
    dragGesture 300 ([280] ++ [240]) loaded =
      next { loaded with startX := 300, endX := 240, isDragging := false } :=
  ⟨by norm_num, (C6_swipe_threshold loaded 300 240 [280]).2.2.2.2.2.1 (by norm_num)⟩

theorem tap_eq (x : ℚ) (s : State) :
    dragGesture x [] s =
      if |doubleSub s.endX x| < threshold then { s with startX := x, isDragging := false }
      else if doubleSub s.endX x > 0 then prev { s with startX := x, isDragging := false }
      else next { s with startX := x, isDragging := false } := by
  unfold dragGesture
  rw [List.foldl_nil, handleTouchEnd_of_dragging _ rfl]
  rfl

/-- C10, the code at the failing inputs.  On the freshly loaded page (`endX` is
still `0`, index `0`) a press at 100 released without any move is taken for a
swipe of `0 - 100 = -100`: `next()` is called and the index becomes `1`.  After
a completed swipe from 100 to 200 (index `4`) the variables keep `startX = 100`
and `endX = 200`, and a tap at 100 is taken for the same swipe again: `prev()`
is called and the index becomes `3`. -/
theorem C10_tap_reads_stale_endX :
    loaded.currentIndex = some 0 ∧ loaded.endX = 0 ∧
    dragGesture 100 [] loaded = next { loaded with startX := 100, isDragging := false } ∧
    (dragGesture 100 [] loaded).currentIndex = some 1 ∧
    (dragGesture 100 [200] loaded).currentIndex = some 4 ∧
    (dragGesture 100 [200] loaded).startX = 100 ∧
    (dragGesture 100 [200] loaded).endX = 200 ∧
    dragGesture 100 [] (dragGesture 100 [200] loaded) =
      prev { dragGesture 100 [200] loaded with startX := 100, isDragging := false } ∧
    (dragGesture 100 [] (dragGesture 100 [200] loaded)).currentIndex = some 3 := by
  have hend : loaded.endX = 0 := rfl
  have hd0 : doubleSub 0 100 = -100 := by
    have hd := doubleSub_int 0 100 (by norm_num)
    push_cast at hd
    rw [hd]; norm_num
  have hd2 : doubleSub 200 100 = 100 := by
    have hd := doubleSub_int 200 100 (by norm_num)
    push_cast at hd
    rw [hd]; norm_num
  have h1 : dragGesture 100 [] loaded =
      next { loaded with startX := 100, isDragging := false } := by
    have c1 : ¬ |doubleSub loaded.endX 100| < threshold := by
      rw [hend, hd0, threshold, abs_lt]; intro hc; norm_num at hc
    have c2 : ¬ doubleSub loaded.endX 100 > 0 := by rw [hend, hd0]; norm_num
    rw [tap_eq, if_neg c1, if_neg c2]
  have h2 : dragGesture 100 [200] loaded =
      prev { loaded with startX := 100, endX := 200, isDragging := false } := by
    have h := dragGesture_prev 100 200 [] loaded (by rw [hd2]; norm_num)
    simpa using h
  have h3 : (dragGesture 100 [200] loaded).startX = 100 := by rw [h2]; rfl
  have h4 : (dragGesture 100 [200] loaded).endX = 200 := by rw [h2]; rfl
  have h5 : dragGesture 100 [] (dragGesture 100 [200] loaded) =
      prev { dragGesture 100 [200] loaded with startX := 100, isDragging := false } := by
    have c1 : ¬ |doubleSub (dragGesture 100 [200] loaded).endX 100| < threshold := by
      rw [h4, hd2, threshold, abs_lt]; intro hc; norm_num at hc
    have c2 : doubleSub (dragGesture 100 [200] loaded).endX 100 > 0 := by
      rw [h4, hd2]; norm_num
    rw [tap_eq, if_neg c1, if_pos c2]
  refine ⟨by decide, hend, h1, ?_, ?_, h3, h4, h5, ?_⟩
  · rw [h1]; decide
  · rw [h2]; decide
  · rw [h5, h2]; decide

/-! ## Direct navigation -/

theorem goTo_currentIndex (idx : Int) (s : State) : (goTo idx s).currentIndex = some idx := by
  have h := resetIfAutoplay_frame (updateSlider { s with currentIndex := some idx })
  simpa [goTo, updateSlider, resetZoom] using h.2.1

theorem goTo_images (idx : Int) (s : State) : (goTo idx s).images = s.images := by
  have h := resetIfAutoplay_frame (updateSlider { s with currentIndex := some idx })
  simpa [goTo, updateSlider, resetZoom] using h.1

/-- C9, the claim refuted on the loaded page with its five images: `goTo(7)`
stores `7` and `goTo(-1)` stores `-1`; the index is then outside `[0, 4]`. -/
theorem C9_goTo_out_of_range :
    (goTo 7 loaded).images.length = 5 ∧
    (goTo 7 loaded).currentIndex = some 7 ∧
    (goTo (-1) loaded).currentIndex = some (-1) ∧
    ¬ IndexValid 5 (goTo 7 loaded) := by
  refine ⟨by decide, by decide, by decide, ?_⟩
  rintro ⟨_, j, hj, _, hlt⟩
  have h7 : (goTo 7 loaded).currentIndex = some 7 := by decide
  rw [h7] at hj
  cases hj
  omega

/-- C9 as amended: `goTo(i)` stores `i` as the index for every integer `i` and
leaves the images alone; the index is therefore in `[0, n-1]` after the call
when `0 <= i < n`, and is the out-of-range `i` itself otherwise (no clamping,
no rejection). -/
theorem C9_goTo_stores_index (s : State) (i : Int) :
    (goTo i s).currentIndex = some i ∧
    (goTo i s).images = s.images ∧
    (0 ≤ i → i < s.images.length → IndexValid s.images.length (goTo i s)) := by
  refine ⟨goTo_currentIndex i s, goTo_images i s, ?_⟩
  intro h0 h1
  exact ⟨by rw [goTo_images], i, goTo_currentIndex i s, h0, h1⟩

/-- The amended C9 on the loaded page for `goTo(3)`. -/
theorem C9_goTo_stores_index_witness : IndexValid loaded.images.length (goTo 3 loaded) :=
  (C9_goTo_stores_index loaded 3).2.2 (by decide) (by decide)

/-! ## Fullscreen and autoplay -/

/-- C5, the code at the failing input.  On the loaded page autoplay is on and
timer `1` runs.  `toggleFullscreen()` attaches one overlay and stops the timer.
Closing the overlay with a second `toggleFullscreen()`, with the close button or
with the Escape key removes the overlay and leaves `autoplay` true with no timer
scheduled; only the click on the backdrop starts a timer again.  That listener
is registered only when autoplay is on at open time: with autoplay off a click
on the backdrop leaves the overlay in place. -/
theorem C5_close_does_not_resume :
    loaded.autoplay = true ∧ loaded.timer = some 1 ∧ loaded.overlays = [] ∧
    (toggleFullscreen loaded).overlays = [⟨"images/image1.jpg", true⟩] ∧
    (toggleFullscreen loaded).timer = none ∧
    (toggleFullscreen loaded).scheduled = [] ∧
    (toggleFullscreen (toggleFullscreen loaded)).overlays = [] ∧
    (toggleFullscreen (toggleFullscreen loaded)).autoplay = true ∧
    (toggleFullscreen (toggleFullscreen loaded)).timer = none ∧
    (toggleFullscreen (toggleFullscreen loaded)).scheduled = [] ∧
    (closeButtonClick (toggleFullscreen loaded)).overlays = [] ∧
    (closeButtonClick (toggleFullscreen loaded)).autoplay = true ∧
    (closeButtonClick (toggleFullscreen loaded)).scheduled = [] ∧
    (keydown "Escape" (toggleFullscreen loaded)).overlays = [] ∧
    (keydown "Escape" (toggleFullscreen loaded)).autoplay = true ∧
    (keydown "Escape" (toggleFullscreen loaded)).scheduled = [] ∧
    (backdropClick 0 (toggleFullscreen loaded)).overlays = [] ∧
    (backdropClick 0 (toggleFullscreen loaded)).timer = some 2 ∧
    (backdropClick 0 (toggleFullscreen loaded)).scheduled = [2] ∧
    (toggleAutoplay loaded).autoplay = false ∧
    (toggleFullscreen (toggleAutoplay loaded)).overlays = [⟨"images/image1.jpg", false⟩] ∧
    (backdropClick 0 (toggleFullscreen (toggleAutoplay loaded))).overlays
      = [⟨"images/image1.jpg", false⟩] := by
  decide

/-! ## Image input -/

/-- C2, the code at the failing inputs.  The prior state is the loaded page
after `goTo(3)`.  A selection of one text file starts no load and leaves
`images` empty and the index `3`; a following `next()` makes the index `NaN`.
A selection of a PNG and a text file starts one load; when it has completed
`images` has one element, the index is still `3` and the slider still shows the
five default images.  The sibling paths do reset: the empty selection gives the
default images and index `0`, the PNG alone gives one image and index `0`. -/
theorem C2_non_image_file_breaks_reset :
    (goTo 3 loaded).currentIndex = some 3 ∧
    (imageInputChange [textFile] (goTo 3 loaded)).pending = [] ∧
    (imageInputChange [textFile] (goTo 3 loaded)).images = [] ∧
    (imageInputChange [textFile] (goTo 3 loaded)).currentIndex = some 3 ∧
    (next (imageInputChange [textFile] (goTo 3 loaded))).currentIndex = none ∧
    (imageInputChange [pngFile, textFile] (goTo 3 loaded)).pending.length = 1 ∧
    (readerOnload 0 (imageInputChange [pngFile, textFile] (goTo 3 loaded))).pending = [] ∧
    (readerOnload 0 (imageInputChange [pngFile, textFile] (goTo 3 loaded))).images
      = [pngFile.dataURL] ∧
    (readerOnload 0 (imageInputChange [pngFile, textFile] (goTo 3 loaded))).currentIndex
      = some 3 ∧
    (readerOnload 0 (imageInputChange [pngFile, textFile] (goTo 3 loaded))).sliderChildren
      = defaultImages ∧
    (imageInputChange [] (goTo 3 loaded)).images = defaultImages ∧
    (imageInputChange [] (goTo 3 loaded)).currentIndex = some 0 ∧
    (readerOnload 0 (imageInputChange [pngFile] (goTo 3 loaded))).images = [pngFile.dataURL] ∧
    (readerOnload 0 (imageInputChange [pngFile] (goTo 3 loaded))).currentIndex = some 0 := by
  decide

end ImageSlider
